import Mathlib

/-!
Shallow embedding of `pip_upgrade/main.py` (class `PipUpgrader`).

The package manager, the JSON parser and the interactive console are external
collaborators; they are modelled by an `Env` value that records, for each
package name, the result of the corresponding subprocess invocation, the text
typed at each prompt, the result of the single batch subprocess, and the
completion order of the worker pool (`as_completed` yields futures in an
arbitrary order, modelled as a reordering function).

Side effects (prints, prompts, subprocess invocations, outcome records,
summaries) are made observable as a trace of `Event`s, so that claims about
"which subprocesses are invoked" and "which outcomes are produced" can be
stated as properties of the trace.
-/

/-- One record of the JSON output of `pip list --outdated --format=json`:
the code reads the keys `name`, `version` and `latest_version`. -/
structure PackageInfo where
  name : String
  version : String
  latest_version : String
deriving DecidableEq, Repr

/-- The constructor arguments of `PipUpgrader.__init__` that the orchestration
reads: `self.include` is `None` or a set of names (modelled as an optional
list, used only through membership), `self.exclude` defaults to the empty
set. -/
structure Config where
  max_workers : Nat
  timeout : Nat
  includeList : Option (List String)
  exclude : List String
  interactive : Bool
  batch_mode : Bool
  continue_on_error : Bool
deriving Repr

/-- The observable result of one `subprocess.run(..., capture_output=True,
check=True, timeout=...)` call, at the granularity the except clauses of
`upgrade_package` and `batch_upgrade_packages` distinguish: a normal return
(exit 0, since `check=True`), a `CalledProcessError` (non-zero exit; it
carries `str(e)` and the captured stderr of the process), a `TimeoutExpired`,
another `SubprocessError`, or any other exception. -/
inductive RunResult where
  | completed (stdout stderr : String)
  | calledProcessError (excStr stderr : String)
  | timeoutExpired (excStr : String)
  | otherSubprocessError (excStr : String)
  | otherException (excStr : String)
deriving DecidableEq, Repr

/-- The observable result of the `pip list --outdated --format=json` query
followed by `json.loads`, at the granularity of the except clauses of
`get_outdated_packages`: parsed package list, `subprocess.SubprocessError`,
or `json.JSONDecodeError`. -/
inductive ListQueryResult where
  | ok (packages : List PackageInfo)
  | subprocessError (excStr : String)
  | jsonDecodeError
deriving DecidableEq, Repr

/-- The observable result of `open` + `json.load` in `import_package_list`:
a parsed list or any exception. -/
inductive ImportResult where
  | ok (packages : List PackageInfo)
  | failure (excStr : String)
deriving DecidableEq, Repr

/-- The external world of one run: per package name, the `RunResult` of
`pip install --upgrade <name>` and the text answered at the per-package
prompt; the `RunResult` of the single batch `pip install --upgrade <names>`;
the text answered at the general confirmation prompt; and the order in which
`as_completed` delivers the futures of the worker pool. -/
structure Env where
  runOne : String → RunResult
  respond : String → String
  batchRun : RunResult
  generalResponse : String
  completionOrder : List PackageInfo → List PackageInfo

/-- The filter inside `get_outdated_packages`, lines 70-75: a package is
skipped when an include set is present and does not contain its name, and
skipped when its name is in the exclude set; otherwise it is kept. -/
def passesFilter (cfg : Config) (pkg : PackageInfo) : Bool :=
  if (match cfg.includeList with
      | some inc => decide (pkg.name ∉ inc)
      | none => false) then false
  else if pkg.name ∈ cfg.exclude then false
  else true

/-- `PipUpgrader.get_outdated_packages`: on a successful query, the parsed
list filtered by include/exclude; on `SubprocessError` or `JSONDecodeError`,
the error is logged and printed and the empty list is returned. -/
def get_outdated_packages (cfg : Config) (q : ListQueryResult) : List PackageInfo :=
  match q with
  | .ok outdated => outdated.filter (passesFilter cfg)
  | .subprocessError _ => []
  | .jsonDecodeError => []

/-- `PipUpgrader.import_package_list`: the parsed list, or the empty list on
any exception. -/
def import_package_list (r : ImportResult) : List PackageInfo :=
  match r with
  | .ok packages => packages
  | .failure _ => []

/-- Python substring test `sub in s`. -/
def containsSubstr (sub s : String) : Bool :=
  decide (sub.data <:+: s.data)

/-- The three branches of the interactive dispatch loop, lines 244-252:
success, else message contains "Skipped by user", else failed. -/
inductive Status where
  | success
  | skipped
  | failed
deriving DecidableEq, Repr

/-- The classification applied by the interactive loop to one result triple
of `upgrade_package`. -/
def classify (r : String × Bool × String) : Status :=
  if r.2.1 then .success
  else if containsSubstr "Skipped by user" r.2.2 then .skipped
  else .failed

/-- Observable events of a run. `pkgSubprocess` is one `pip install --upgrade
<name>` invocation from `upgrade_package`; `batchSubprocess` is the single
batch invocation from `batch_upgrade_packages`; `outcome` is one result
triple reported by the dispatch loop. -/
inductive Event where
  | printedUpToDate
  | printedFoundList (n : Nat)
  | printedDryRun
  | promptedGeneral
  | printedCancelled
  | batchSubprocess (names : List String)
  | printedBatchSummary (succeeded failed : Nat)
  | promptedPackage (name : String)
  | pkgSubprocess (name : String)
  | outcome (name : String) (success : Bool) (message : String)
  | printedStoppingOnError
  | printedSummary (succeeded skipped failed : Nat)
deriving DecidableEq, Repr

/-- The strip-lower-compare applied to a prompt answer, lines 97-98 and
205-206: `response = input(...).strip().lower()`, and the upgrade is declined
when `response and response != 'y'`. -/
def declines (answer : String) : Bool :=
  decide (answer.trim.toLower ≠ "" ∧ answer.trim.toLower ≠ "y")

/-- The try/except body of `upgrade_package`, lines 101-125. The local
`result` is initialised to `None` (line 93) and is only assigned by the
`subprocess.run` call itself; when that call raises, the handler runs with
`result` still `None`, so the conditional
`result.stderr if result and hasattr(result, 'stderr') else str(e)` is kept
here as a match on that still-empty local. -/
def run_install_once (cfg : Config) (env : Env) (package : PackageInfo) :
    String × Bool × String :=
  let result : Option (String × String) := none
  match env.runOne package.name with
  | .completed _ _ =>
      (package.name, true,
        "Upgraded from " ++ package.version ++ " to " ++ package.latest_version)
  | .timeoutExpired _ =>
      (package.name, false, "Timed out after " ++ toString cfg.timeout ++ " seconds")
  | .calledProcessError excStr _ =>
      let error_msg := match result with
        | some r => r.2
        | none => excStr
      (package.name, false, "Error: " ++ error_msg)
  | .otherSubprocessError excStr =>
      let error_msg := match result with
        | some r => r.2
        | none => excStr
      (package.name, false, "Error: " ++ error_msg)
  | .otherException excStr =>
      (package.name, false, "Unexpected error: " ++ excStr)

/-- `PipUpgrader.upgrade_package`, instrumented with its events: in
interactive mode a prompt is shown first and an answer that is non-empty and
not "y" after `strip().lower()` returns the skip triple with no subprocess
invoked; otherwise one subprocess is invoked and the try/except body decides
the triple. -/
def upgrade_package_run (cfg : Config) (env : Env) (package : PackageInfo) :
    List Event × (String × Bool × String) :=
  if cfg.interactive then
    if declines (env.respond package.name) then
      ([Event.promptedPackage package.name], (package.name, false, "Skipped by user"))
    else
      ([Event.promptedPackage package.name, Event.pkgSubprocess package.name],
        run_install_once cfg env package)
  else
    ([Event.pkgSubprocess package.name], run_install_once cfg env package)

/-- The result triple of `PipUpgrader.upgrade_package` (the events
forgotten). -/
def upgrade_package (cfg : Config) (env : Env) (package : PackageInfo) :
    String × Bool × String :=
  (upgrade_package_run cfg env package).2

/-- The dict comprehension `name_to_version` of `batch_upgrade_packages`,
line 134: later entries of the list overwrite earlier ones with the same
name. -/
def name_to_version (packages : List PackageInfo) (name : String) : String × String :=
  (packages.foldl
    (fun acc pkg =>
      if pkg.name = name then some (pkg.version, pkg.latest_version) else acc)
    none).getD ("", "")

/-- `PipUpgrader.batch_upgrade_packages`, instrumented with its events: empty
input returns early with no subprocess; otherwise one batch subprocess is
invoked, a normal return yields one success triple per package name (versions
looked up in `name_to_version`), and every exception is caught and the empty
list is returned to signal fallback. -/
def batch_upgrade_run (cfg : Config) (env : Env) (packages : List PackageInfo) :
    List Event × List (String × Bool × String) :=
  if packages = [] then ([], [])
  else
    let package_names := packages.map (fun p => p.name)
    match env.batchRun with
    | .completed _ _ =>
        ([Event.batchSubprocess package_names],
          package_names.map (fun n =>
            let vv := name_to_version packages n
            (n, true, "Upgraded from " ++ vv.1 ++ " to " ++ vv.2)))
    | _ => ([Event.batchSubprocess package_names], [])

/-- The return value of `PipUpgrader.batch_upgrade_packages` (the events
forgotten). -/
def batch_upgrade_packages (cfg : Config) (env : Env) (packages : List PackageInfo) :
    List (String × Bool × String) :=
  (batch_upgrade_run cfg env packages).2

/-- The interactive sequential loop of `upgrade_all_packages`, lines 239-257:
events plus the counters (successful, skipped, failed). A failed outcome with
`continue_on_error` unset breaks the loop after printing the stop message. -/
def interactive_loop (cfg : Config) (env : Env) :
    List PackageInfo → List Event × (Nat × Nat × Nat)
  | [] => ([], (0, 0, 0))
  | pkg :: rest =>
    let step := upgrade_package_run cfg env pkg
    let r := step.2
    let oev := Event.outcome r.1 r.2.1 r.2.2
    match classify r with
    | .success =>
        let tail := interactive_loop cfg env rest
        (step.1 ++ oev :: tail.1,
          (tail.2.1 + 1, tail.2.2.1, tail.2.2.2))
    | .skipped =>
        let tail := interactive_loop cfg env rest
        (step.1 ++ oev :: tail.1,
          (tail.2.1, tail.2.2.1 + 1, tail.2.2.2))
    | .failed =>
        if cfg.continue_on_error then
          let tail := interactive_loop cfg env rest
          (step.1 ++ oev :: tail.1,
            (tail.2.1, tail.2.2.1, tail.2.2.2 + 1))
        else
          (step.1 ++ [oev, Event.printedStoppingOnError], (0, 0, 1))

/-- The non-interactive result collection of `upgrade_all_packages`, lines
258-286, applied to the futures in completion order: every future yields one
result triple, counted successful or failed (no skip branch here). -/
def pool_loop (cfg : Config) (env : Env) :
    List PackageInfo → List Event × (Nat × Nat)
  | [] => ([], (0, 0))
  | pkg :: rest =>
    let step := upgrade_package_run cfg env pkg
    let r := step.2
    let oev := Event.outcome r.1 r.2.1 r.2.2
    let tail := pool_loop cfg env rest
    if r.2.1 then (step.1 ++ oev :: tail.1, (tail.2.1 + 1, tail.2.2))
    else (step.1 ++ oev :: tail.1, (tail.2.1, tail.2.2 + 1))

/-- The per-package phase of `upgrade_all_packages` (the `with
ThreadPoolExecutor` block plus the final summary, lines 237-297): interactive
mode processes the list sequentially, non-interactive mode submits every
package and collects results in completion order; either way the summary
counters are printed at the end (the skipped counter is only ever incremented
interactively). -/
def per_package_phase (cfg : Config) (env : Env) (outdated : List PackageInfo) :
    List Event :=
  if cfg.interactive then
    let res := interactive_loop cfg env outdated
    res.1 ++ [Event.printedSummary res.2.1 res.2.2.1 res.2.2.2]
  else
    let res := pool_loop cfg env (env.completionOrder outdated)
    res.1 ++ [Event.printedSummary res.2.1 0 res.2.2]

/-- Lines 210-297 of `upgrade_all_packages`: when batch mode is on and
interactive mode is off, try the batch upgrade first; a non-empty result
prints the batch summary and returns, an empty result (the fallback sentinel)
falls through to the per-package phase. -/
def batchOrPerPkg (cfg : Config) (env : Env) (outdated : List PackageInfo) :
    List Event :=
  if cfg.batch_mode && !cfg.interactive then
    let bres := batch_upgrade_run cfg env outdated
    if bres.2 = [] then bres.1 ++ per_package_phase cfg env outdated
    else
      bres.1 ++ [Event.printedBatchSummary
        ((bres.2.filter (fun r => r.2.1)).length)
        (bres.2.length - (bres.2.filter (fun r => r.2.1)).length)]
  else per_package_phase cfg env outdated

/-- `PipUpgrader.upgrade_all_packages`: empty input prints the up-to-date
message and returns; otherwise the found-list header is printed; a dry run
stops there; in interactive mode with more than 5 packages a general
confirmation is prompted and a non-empty answer other than "y" (after
`strip().lower()`) cancels the whole run; otherwise the batch or per-package
phase runs. -/
def upgrade_all_packages (cfg : Config) (env : Env) (outdated : List PackageInfo)
    (dry_run : Bool) : List Event :=
  if outdated = [] then [Event.printedUpToDate]
  else if dry_run then [Event.printedFoundList outdated.length, Event.printedDryRun]
  else if cfg.interactive && decide (5 < outdated.length) then
    if declines env.generalResponse then
      [Event.printedFoundList outdated.length, Event.promptedGeneral,
        Event.printedCancelled]
    else
      Event.printedFoundList outdated.length :: Event.promptedGeneral ::
        batchOrPerPkg cfg env outdated
  else
    Event.printedFoundList outdated.length :: batchOrPerPkg cfg env outdated

/-- Names of the per-package upgrade subprocess invocations of a trace. -/
def pkgSubNames (evs : List Event) : List String :=
  evs.filterMap (fun e => match e with
    | .pkgSubprocess n => some n
    | _ => none)

/-- The outcome triples of a trace. -/
def outcomesOf (evs : List Event) : List (String × Bool × String) :=
  evs.filterMap (fun e => match e with
    | .outcome n s m => some (n, s, m)
    | _ => none)

/-- True on the two error results of the outdated query (non-zero exit or
unparsable output). -/
def queryFailed : ListQueryResult → Bool
  | .ok _ => false
  | .subprocessError _ => true
  | .jsonDecodeError => true

/-- True when the batch subprocess returned normally (exit 0). -/
def batchSucceeded : RunResult → Bool
  | .completed _ _ => true
  | _ => false

/-- The defaults of `parse_args`: max_workers 10, timeout 300, no include, no
exclude, every flag off. -/
def defaultCfg : Config :=
  { max_workers := 10, timeout := 300, includeList := none, exclude := [],
    interactive := false, batch_mode := false, continue_on_error := false }

/-- A concrete outdated package record. -/
def samplePkg : PackageInfo :=
  { name := "requests", version := "2.0.0", latest_version := "2.1.0" }

/-- A benign external world: every subprocess exits 0, every prompt is
answered with the empty string, the pool completes futures in submission
order. -/
def quietEnv : Env :=
  { runOne := fun _ => RunResult.completed "" "",
    respond := fun _ => "",
    batchRun := RunResult.completed "" "",
    generalResponse := "",
    completionOrder := fun l => l }

/-- The default configuration with interactive mode on. -/
def interactiveCfg : Config := { defaultCfg with interactive := true }

/-- The default configuration with batch mode on. -/
def batchCfg : Config := { defaultCfg with batch_mode := true }

/-- The benign world with a failing batch subprocess. -/
def failBatchEnv : Env :=
  { quietEnv with batchRun := RunResult.calledProcessError "exit 1" "boom" }

theorem outcomesOf_append (a b : List Event) :
    outcomesOf (a ++ b) = outcomesOf a ++ outcomesOf b := by
  simp [outcomesOf, List.filterMap_append]

theorem pkgSubNames_append (a b : List Event) :
    pkgSubNames (a ++ b) = pkgSubNames a ++ pkgSubNames b := by
  simp [pkgSubNames, List.filterMap_append]

theorem outcomesOf_step (cfg : Config) (env : Env) (p : PackageInfo) :
    outcomesOf (upgrade_package_run cfg env p).1 = [] := by
  unfold upgrade_package_run
  cases hI : cfg.interactive
  · rfl
  · cases hD : declines (env.respond p.name) <;> rfl

theorem pkgSubNames_step (cfg : Config) (env : Env) (p : PackageInfo)
    (hI : cfg.interactive = false) :
    pkgSubNames (upgrade_package_run cfg env p).1 = [p.name] := by
  unfold upgrade_package_run
  rw [hI]
  rfl

theorem no_general_step (cfg : Config) (env : Env) (p : PackageInfo) :
    Event.promptedGeneral ∉ (upgrade_package_run cfg env p).1 := by
  unfold upgrade_package_run
  cases hI : cfg.interactive
  · simp
  · cases hD : declines (env.respond p.name) <;> simp

theorem outcomesOf_cons_outcome (n : String) (s : Bool) (m : String)
    (t : List Event) :
    outcomesOf (Event.outcome n s m :: t) = (n, s, m) :: outcomesOf t := rfl

theorem pkgSubNames_cons_outcome (n : String) (s : Bool) (m : String)
    (t : List Event) :
    pkgSubNames (Event.outcome n s m :: t) = pkgSubNames t := rfl

theorem pool_loop_cons_fst (cfg : Config) (env : Env) (p : PackageInfo)
    (rest : List PackageInfo) :
    (pool_loop cfg env (p :: rest)).1
      = (upgrade_package_run cfg env p).1
        ++ Event.outcome (upgrade_package_run cfg env p).2.1
             (upgrade_package_run cfg env p).2.2.1
             (upgrade_package_run cfg env p).2.2.2
          :: (pool_loop cfg env rest).1 := by
  simp only [pool_loop]
  split <;> rfl

theorem pool_loop_outcomes (cfg : Config) (env : Env) (l : List PackageInfo) :
    outcomesOf (pool_loop cfg env l).1
      = l.map (fun p => upgrade_package cfg env p) := by
  induction l with
  | nil => rfl
  | cons p rest ih =>
    rw [pool_loop_cons_fst, outcomesOf_append, outcomesOf_step]
    simp only [List.nil_append, outcomesOf_cons_outcome, ih, List.map_cons]
    rfl

theorem pool_loop_counts (cfg : Config) (env : Env) (l : List PackageInfo) :
    (pool_loop cfg env l).2.1 + (pool_loop cfg env l).2.2 = l.length := by
  induction l with
  | nil => rfl
  | cons p rest ih =>
    simp only [pool_loop]
    cases hS : (upgrade_package_run cfg env p).2.2.1 <;> simp [hS] <;> omega

theorem pool_loop_subNames (cfg : Config) (env : Env) (l : List PackageInfo)
    (hI : cfg.interactive = false) :
    pkgSubNames (pool_loop cfg env l).1 = l.map (fun p => p.name) := by
  induction l with
  | nil => rfl
  | cons p rest ih =>
    rw [pool_loop_cons_fst, pkgSubNames_append, pkgSubNames_step cfg env p hI]
    simp only [pkgSubNames_cons_outcome, ih, List.cons_append, List.nil_append,
      List.map_cons]

theorem pool_loop_no_general (cfg : Config) (env : Env) (l : List PackageInfo) :
    Event.promptedGeneral ∉ (pool_loop cfg env l).1 := by
  induction l with
  | nil => simp [pool_loop]
  | cons p rest ih =>
    simp only [pool_loop]
    cases hS : (upgrade_package_run cfg env p).2.2.1 <;>
      simp [hS, List.mem_append, no_general_step cfg env p, ih]

theorem interactive_loop_no_general (cfg : Config) (env : Env)
    (l : List PackageInfo) :
    Event.promptedGeneral ∉ (interactive_loop cfg env l).1 := by
  induction l with
  | nil => simp [interactive_loop]
  | cons p rest ih =>
    simp only [interactive_loop]
    cases hC : classify (upgrade_package_run cfg env p).2 <;>
      simp [hC, List.mem_append, no_general_step cfg env p, ih]
    cases hE : cfg.continue_on_error <;>
      simp [hE, List.mem_append, no_general_step cfg env p, ih]

theorem per_package_no_general (cfg : Config) (env : Env)
    (l : List PackageInfo) :
    Event.promptedGeneral ∉ per_package_phase cfg env l := by
  unfold per_package_phase
  cases hI : cfg.interactive <;>
    simp [List.mem_append, interactive_loop_no_general, pool_loop_no_general]

/-- C2: the filter of `get_outdated_packages` keeps a package iff its name is
not in the exclude set and, when an include set is present, its name is in
the include set; in particular exclude wins over include, and exclude applies
with no include set given. -/
theorem C2_filter_include_exclude (cfg : Config) (pkgs : List PackageInfo)
    (pkg : PackageInfo) :
    pkg ∈ get_outdated_packages cfg (ListQueryResult.ok pkgs) ↔
      pkg ∈ pkgs ∧ pkg.name ∉ cfg.exclude ∧
        ∀ inc, cfg.includeList = some inc → pkg.name ∈ inc := by
  cases h : cfg.includeList with
  | none =>
    simp [get_outdated_packages, List.mem_filter, passesFilter, h]
  | some inc =>
    simp only [get_outdated_packages, List.mem_filter, passesFilter, h]
    constructor
    · intro hm
      obtain ⟨hmem, hf⟩ := hm
      by_cases hin : pkg.name ∈ inc
      · by_cases hex : pkg.name ∈ cfg.exclude
        · simp [hin, hex] at hf
        · exact ⟨hmem, hex, fun i hi => by cases hi; exact hin⟩
      · simp [hin] at hf
    · rintro ⟨hmem, hex, hinc⟩
      have hin : pkg.name ∈ inc := hinc inc rfl
      refine ⟨hmem, ?_⟩
      simp [hin, hex]

/-- C3 counterexample: a query whose subprocess raises, and a query whose
output is unparsable, both make `get_outdated_packages` return the plain
empty list, the very value a successful query with no outdated packages
returns; the function does not fail with a distinct error value. -/
theorem C3_counterexample :
    get_outdated_packages defaultCfg (ListQueryResult.subprocessError "pip exited 1")
        = [] ∧
    get_outdated_packages defaultCfg ListQueryResult.jsonDecodeError = [] ∧
    get_outdated_packages defaultCfg (ListQueryResult.subprocessError "pip exited 1")
        = get_outdated_packages defaultCfg (ListQueryResult.ok []) :=
  ⟨rfl, rfl, rfl⟩

/-- C3 amended: on a non-zero exit of the list query or on unparsable output,
`get_outdated_packages` logs and prints the error and returns the empty
package list (indistinguishable from a successful query with nothing
outdated); no failure value is produced. -/
theorem C3_amended_returns_empty (cfg : Config) (q : ListQueryResult)
    (h : queryFailed q = true) :
    get_outdated_packages cfg q = [] := by
  cases q with
  | ok pkgs => simp [queryFailed] at h
  | subprocessError e => rfl
  | jsonDecodeError => rfl

theorem C3_amended_witness :
    get_outdated_packages defaultCfg ListQueryResult.jsonDecodeError = [] :=
  C3_amended_returns_empty defaultCfg ListQueryResult.jsonDecodeError rfl

/-- C4, divergence witness: when the upgrade subprocess of a package exits
non-zero, the failed outcome carries `"Error: " ++ str(e)` for the raised
`CalledProcessError` and never the captured stderr of the subprocess (here
`errText`, absent from the result): the local `result` of `upgrade_package`
is still `None` when the handler runs, because the raising `subprocess.run`
call is the only assignment to it. -/
theorem C4_stderr_never_reported (cfg : Config) (pkg : PackageInfo)
    (excStr errText : String) :
    upgrade_package { cfg with interactive := false }
      { runOne := fun _ => RunResult.calledProcessError excStr errText,
        respond := fun _ => "",
        batchRun := RunResult.completed "" "",
        generalResponse := "",
        completionOrder := fun l => l } pkg
      = (pkg.name, false, "Error: " ++ excStr) := rfl

/-- C9: on the empty package list, `upgrade_all_packages` only prints the
up-to-date message: no batch or per-package subprocess, no outcome, no
summary; and the outdated query and the package-list import both return the
empty list on failure, so a failing query or import leads to exactly this
behaviour. -/
theorem C9_empty_list_noop (cfg : Config) (env : Env) (dry_run : Bool) :
    upgrade_all_packages cfg env [] dry_run = [Event.printedUpToDate] ∧
    (∀ e, get_outdated_packages cfg (ListQueryResult.subprocessError e) = []) ∧
    get_outdated_packages cfg ListQueryResult.jsonDecodeError = [] ∧
    (∀ e, import_package_list (ImportResult.failure e) = []) :=
  ⟨rfl, fun _ => rfl, rfl, fun _ => rfl⟩

theorem ntv_foldl_stable (packages : List PackageInfo) (nm : String)
    (h : ∀ q ∈ packages, q.name ≠ nm) (acc : Option (String × String)) :
    packages.foldl
      (fun acc pkg =>
        if pkg.name = nm then some (pkg.version, pkg.latest_version) else acc)
      acc = acc := by
  induction packages generalizing acc with
  | nil => rfl
  | cons q rest ih =>
    simp only [List.foldl_cons]
    rw [if_neg (h q (List.mem_cons_self q rest))]
    exact ih (fun x hx => h x (List.mem_cons_of_mem q hx)) acc

theorem name_to_version_nodup (packages : List PackageInfo) (pkg : PackageInfo)
    (hnd : (packages.map (fun p => p.name)).Nodup) (hmem : pkg ∈ packages) :
    name_to_version packages pkg.name = (pkg.version, pkg.latest_version) := by
  induction packages with
  | nil => cases hmem
  | cons q rest ih =>
    simp only [List.map_cons, List.nodup_cons] at hnd
    rcases List.mem_cons.1 hmem with rfl | hmem2
    · unfold name_to_version
      simp only [List.foldl_cons, if_pos rfl]
      rw [ntv_foldl_stable rest pkg.name ?hstable]
      · rfl
      case hstable =>
        intro x hx heq
        exact hnd.1 (heq ▸ List.mem_map_of_mem (fun p => p.name) hx)
    · have hq : q.name ≠ pkg.name := by
        intro heq
        exact hnd.1 (heq ▸ List.mem_map_of_mem (fun p => p.name) hmem2)
      unfold name_to_version
      simp only [List.foldl_cons, if_neg hq]
      exact ih hnd.2 hmem2

theorem batch_upgrade_run_failure (cfg : Config) (env : Env)
    (outdated : List PackageInfo) (hFail : batchSucceeded env.batchRun = false)
    (hne : outdated ≠ []) :
    batch_upgrade_run cfg env outdated
      = ([Event.batchSubprocess (outdated.map (fun p => p.name))], []) := by
  unfold batch_upgrade_run
  rw [if_neg hne]
  cases hR : env.batchRun with
  | completed out err => rw [hR] at hFail; simp [batchSucceeded] at hFail
  | calledProcessError a b => rfl
  | timeoutExpired a => rfl
  | otherSubprocessError a => rfl
  | otherException a => rfl

/-- C1: when the batch subprocess fails in any way, `batch_upgrade_packages`
returns the empty outcome list (the fallback sentinel, attributing the
failure to no individual package), and `upgrade_all_packages` then runs
exactly one per-package upgrade subprocess for each package of the list (the
per-package subprocess names of the whole trace are a permutation of the
package names). -/
theorem C1_batch_failure_fallback (cfg : Config) (env : Env)
    (outdated : List PackageInfo)
    (hB : cfg.batch_mode = true) (hI : cfg.interactive = false)
    (hFail : batchSucceeded env.batchRun = false)
    (hne : outdated ≠ [])
    (hperm : (env.completionOrder outdated).Perm outdated) :
    batch_upgrade_packages cfg env outdated = [] ∧
    (pkgSubNames (upgrade_all_packages cfg env outdated false)).Perm
      (outdated.map (fun p => p.name)) := by
  have hbe := batch_upgrade_run_failure cfg env outdated hFail hne
  constructor
  · unfold batch_upgrade_packages
    rw [hbe]
  · have htrace : upgrade_all_packages cfg env outdated false
        = Event.printedFoundList outdated.length :: batchOrPerPkg cfg env outdated := by
      unfold upgrade_all_packages
      rw [if_neg hne]
      simp [hI]
    have hbp : batchOrPerPkg cfg env outdated
        = [Event.batchSubprocess (outdated.map (fun p => p.name))]
          ++ per_package_phase cfg env outdated := by
      unfold batchOrPerPkg
      rw [hB, hI]
      simp [hbe]
    have hphase : per_package_phase cfg env outdated
        = (pool_loop cfg env (env.completionOrder outdated)).1
          ++ [Event.printedSummary
              (pool_loop cfg env (env.completionOrder outdated)).2.1 0
              (pool_loop cfg env (env.completionOrder outdated)).2.2] := by
      unfold per_package_phase
      rw [hI]
      rfl
    rw [htrace, hbp, hphase]
    rw [show Event.printedFoundList outdated.length ::
          ([Event.batchSubprocess (outdated.map (fun p => p.name))]
            ++ ((pool_loop cfg env (env.completionOrder outdated)).1
              ++ [Event.printedSummary
                  (pool_loop cfg env (env.completionOrder outdated)).2.1 0
                  (pool_loop cfg env (env.completionOrder outdated)).2.2]))
        = ([Event.printedFoundList outdated.length,
            Event.batchSubprocess (outdated.map (fun p => p.name))]
            ++ (pool_loop cfg env (env.completionOrder outdated)).1)
          ++ [Event.printedSummary
              (pool_loop cfg env (env.completionOrder outdated)).2.1 0
              (pool_loop cfg env (env.completionOrder outdated)).2.2] by simp]
    rw [pkgSubNames_append, pkgSubNames_append]
    rw [show pkgSubNames [Event.printedFoundList outdated.length,
          Event.batchSubprocess (outdated.map (fun p => p.name))] = [] from rfl]
    rw [show pkgSubNames [Event.printedSummary
          (pool_loop cfg env (env.completionOrder outdated)).2.1 0
          (pool_loop cfg env (env.completionOrder outdated)).2.2] = [] from rfl]
    rw [pool_loop_subNames cfg env (env.completionOrder outdated) hI]
    simpa using hperm.map (fun p => p.name)

theorem C1_witness :
    batch_upgrade_packages batchCfg failBatchEnv [samplePkg] = [] ∧
    (pkgSubNames (upgrade_all_packages batchCfg failBatchEnv [samplePkg] false)).Perm
      ([samplePkg].map (fun p => p.name)) :=
  C1_batch_failure_fallback batchCfg failBatchEnv [samplePkg] rfl rfl rfl
    (List.cons_ne_nil _ _) (List.Perm.refl _)

/-- C5: when batch mode is on, interactive mode is off and the single batch
subprocess succeeds on a non-empty list of pairwise distinctly named
packages, `batch_upgrade_packages` yields exactly one success triple per
package carrying its recorded old and new version, and the whole run is the
header, the one batch subprocess and the batch summary (all packages
succeeded, none failed): no per-package subprocess is invoked and the run
ends after the batch summary. -/
theorem C5_batch_success (cfg : Config) (env : Env) (outdated : List PackageInfo)
    (hB : cfg.batch_mode = true) (hI : cfg.interactive = false)
    (hOk : batchSucceeded env.batchRun = true)
    (hne : outdated ≠ [])
    (hnd : (outdated.map (fun p => p.name)).Nodup) :
    batch_upgrade_packages cfg env outdated
      = outdated.map (fun p =>
          (p.name, true,
            "Upgraded from " ++ p.version ++ " to " ++ p.latest_version)) ∧
    upgrade_all_packages cfg env outdated false
      = [Event.printedFoundList outdated.length,
         Event.batchSubprocess (outdated.map (fun p => p.name)),
         Event.printedBatchSummary outdated.length 0] := by
  obtain ⟨out, err, hR⟩ : ∃ out err, env.batchRun = RunResult.completed out err := by
    cases hRR : env.batchRun with
    | completed o e => exact ⟨o, e, rfl⟩
    | calledProcessError a b => rw [hRR] at hOk; simp [batchSucceeded] at hOk
    | timeoutExpired a => rw [hRR] at hOk; simp [batchSucceeded] at hOk
    | otherSubprocessError a => rw [hRR] at hOk; simp [batchSucceeded] at hOk
    | otherException a => rw [hRR] at hOk; simp [batchSucceeded] at hOk
  have hrun : batch_upgrade_run cfg env outdated
      = ([Event.batchSubprocess (outdated.map (fun p => p.name))],
         (outdated.map (fun p => p.name)).map (fun n =>
           (n, true, "Upgraded from " ++ (name_to_version outdated n).1
             ++ " to " ++ (name_to_version outdated n).2))) := by
    unfold batch_upgrade_run
    rw [if_neg hne, hR]
  have hres : batch_upgrade_packages cfg env outdated
      = outdated.map (fun p =>
          (p.name, true,
            "Upgraded from " ++ p.version ++ " to " ++ p.latest_version)) := by
    show (batch_upgrade_run cfg env outdated).2 = _
    rw [hrun]
    simp only [List.map_map]
    refine List.map_congr_left (fun p hp => ?_)
    simp only [Function.comp]
    rw [name_to_version_nodup outdated p hnd hp]
  refine ⟨hres, ?_⟩
  have htrace : upgrade_all_packages cfg env outdated false
      = Event.printedFoundList outdated.length :: batchOrPerPkg cfg env outdated := by
    unfold upgrade_all_packages
    rw [if_neg hne]
    simp [hI]
  have hfull : List.filter (fun r => r.2.1) (batch_upgrade_run cfg env outdated).2
      = (batch_upgrade_run cfg env outdated).2 := by
    rw [show (batch_upgrade_run cfg env outdated).2
        = batch_upgrade_packages cfg env outdated from rfl]
    rw [hres]
    refine List.filter_eq_self.2 (fun a ha => ?_)
    obtain ⟨p, hp, rfl⟩ := List.mem_map.1 ha
    rfl
  have hlen : (batch_upgrade_run cfg env outdated).2.length = outdated.length := by
    rw [show (batch_upgrade_run cfg env outdated).2
        = batch_upgrade_packages cfg env outdated from rfl]
    rw [hres, List.length_map]
  have hne2 : (batch_upgrade_run cfg env outdated).2 ≠ [] := by
    rw [show (batch_upgrade_run cfg env outdated).2
        = batch_upgrade_packages cfg env outdated from rfl]
    rw [hres]
    intro hcon
    exact hne (List.map_eq_nil_iff.1 hcon)
  have hbp : batchOrPerPkg cfg env outdated
      = [Event.batchSubprocess (outdated.map (fun p => p.name)),
         Event.printedBatchSummary outdated.length 0] := by
    unfold batchOrPerPkg
    rw [hB, hI]
    simp only [Bool.not_false, Bool.and_self, if_true]
    rw [if_neg hne2, hfull, hlen, Nat.sub_self]
    rw [show (batch_upgrade_run cfg env outdated).1
        = [Event.batchSubprocess (outdated.map (fun p => p.name))] by rw [hrun]]
    rfl
  rw [htrace, hbp]

theorem C5_witness :
    batch_upgrade_packages batchCfg quietEnv [samplePkg]
      = [samplePkg].map (fun p =>
          (p.name, true,
            "Upgraded from " ++ p.version ++ " to " ++ p.latest_version)) ∧
    upgrade_all_packages batchCfg quietEnv [samplePkg] false
      = [Event.printedFoundList [samplePkg].length,
         Event.batchSubprocess ([samplePkg].map (fun p => p.name)),
         Event.printedBatchSummary [samplePkg].length 0] :=
  C5_batch_success batchCfg quietEnv [samplePkg] rfl rfl rfl
    (List.cons_ne_nil _ _) (by simp)

/-- C6: in interactive mode the loop is strictly sequential in list order;
with continue-on-error set every package of the list contributes exactly one
outcome regardless of failures; with continue-on-error unset the outcomes
cover a prefix of the list such that everything before the last processed
package was not classified failed (success or user skip, so a skip does not
stop the run) and, whenever packages were left unattempted, the last
processed one was classified failed. -/
theorem C6_interactive_stop_on_failure (cfg : Config) (env : Env)
    (outdated : List PackageInfo) (hI : cfg.interactive = true) :
    (cfg.continue_on_error = true →
      outcomesOf (interactive_loop cfg env outdated).1
        = outdated.map (fun p => upgrade_package cfg env p)) ∧
    (cfg.continue_on_error = false →
      ∃ pre post, outdated = pre ++ post ∧
        outcomesOf (interactive_loop cfg env outdated).1
          = pre.map (fun p => upgrade_package cfg env p) ∧
        (∀ p ∈ pre.dropLast, classify (upgrade_package cfg env p) ≠ Status.failed) ∧
        (post ≠ [] → ∃ lastp, pre.getLast? = some lastp ∧
          classify (upgrade_package cfg env lastp) = Status.failed)) := by
  constructor
  · intro hC
    induction outdated with
    | nil => rfl
    | cons p rest ih =>
      simp only [interactive_loop]
      cases hcl : classify (upgrade_package_run cfg env p).2 <;>
        simp only [hcl, hC, if_true] <;>
        rw [outcomesOf_append, outcomesOf_step, List.nil_append,
          outcomesOf_cons_outcome, ih] <;>
        rfl
  · intro hC
    induction outdated with
    | nil =>
      exact ⟨[], [], rfl, rfl, by simp, fun h => absurd rfl h⟩
    | cons p rest ih =>
      obtain ⟨pre, post, hsplit, houts, hmid, hlast⟩ := ih
      cases hcl : classify (upgrade_package_run cfg env p).2 with
      | success =>
        refine ⟨p :: pre, post, by rw [hsplit, List.cons_append], ?_, ?_, ?_⟩
        · simp only [interactive_loop, hcl]
          rw [outcomesOf_append, outcomesOf_step, List.nil_append,
            outcomesOf_cons_outcome, houts]
          rfl
        · intro q hq
          cases pre with
          | nil => simp at hq
          | cons a l =>
            rcases List.mem_cons.1 (by simpa [List.dropLast] using hq) with rfl | hq2
            · rw [show classify (upgrade_package cfg env q)
                  = Status.success from hcl]
              intro hcon
              cases hcon
            · exact hmid q hq2
        · intro hpost
          obtain ⟨lastp, hl, hfl⟩ := hlast hpost
          refine ⟨lastp, ?_, hfl⟩
          cases pre with
          | nil => cases hl
          | cons a l => rw [List.getLast?_cons_cons]; exact hl
      | skipped =>
        refine ⟨p :: pre, post, by rw [hsplit, List.cons_append], ?_, ?_, ?_⟩
        · simp only [interactive_loop, hcl]
          rw [outcomesOf_append, outcomesOf_step, List.nil_append,
            outcomesOf_cons_outcome, houts]
          rfl
        · intro q hq
          cases pre with
          | nil => simp at hq
          | cons a l =>
            rcases List.mem_cons.1 (by simpa [List.dropLast] using hq) with rfl | hq2
            · rw [show classify (upgrade_package cfg env q)
                  = Status.skipped from hcl]
              intro hcon
              cases hcon
            · exact hmid q hq2
        · intro hpost
          obtain ⟨lastp, hl, hfl⟩ := hlast hpost
          refine ⟨lastp, ?_, hfl⟩
          cases pre with
          | nil => cases hl
          | cons a l => rw [List.getLast?_cons_cons]; exact hl
      | failed =>
        refine ⟨[p], rest, rfl, ?_, by simp, ?_⟩
        · simp only [interactive_loop, hcl, hC, Bool.false_eq_true, if_false]
          rw [outcomesOf_append, outcomesOf_step, List.nil_append]
          rfl
        · intro hpost
          exact ⟨p, rfl, hcl⟩

theorem C6_witness :
    outcomesOf (interactive_loop
        { defaultCfg with interactive := true, continue_on_error := true }
        quietEnv [samplePkg]).1
      = [samplePkg].map (fun p => upgrade_package
          { defaultCfg with interactive := true, continue_on_error := true }
          quietEnv p) :=
  (C6_interactive_stop_on_failure
    { defaultCfg with interactive := true, continue_on_error := true }
    quietEnv [samplePkg] rfl).1 rfl

/-- C7: in non-interactive mode, every submitted package contributes exactly
one outcome to the collection (the outcomes are the per-package results, in
the completion order of the pool) and the final summary counters add up to
the package count; moreover one package outcome only depends on that package
subprocess result (same result for that name in another world, same outcome),
so a timeout or failure of one subprocess is recorded locally and cannot
change any other package outcome or prevent it. -/
theorem C7_pool_isolation (cfg : Config) (env : Env)
    (outdated : List PackageInfo) (hI : cfg.interactive = false)
    (hperm : (env.completionOrder outdated).Perm outdated) :
    (outcomesOf (per_package_phase cfg env outdated)).Perm
      (outdated.map (fun p => upgrade_package cfg env p)) ∧
    (∃ s f evs, per_package_phase cfg env outdated
        = evs ++ [Event.printedSummary s 0 f] ∧ s + f = outdated.length) ∧
    (∀ env2 p, env2.runOne p.name = env.runOne p.name →
      upgrade_package cfg env2 p = upgrade_package cfg env p) := by
  have hphase : per_package_phase cfg env outdated
      = (pool_loop cfg env (env.completionOrder outdated)).1
        ++ [Event.printedSummary
            (pool_loop cfg env (env.completionOrder outdated)).2.1 0
            (pool_loop cfg env (env.completionOrder outdated)).2.2] := by
    unfold per_package_phase
    rw [hI]
    rfl
  refine ⟨?_, ?_, ?_⟩
  · rw [hphase, outcomesOf_append,
      show outcomesOf [Event.printedSummary
          (pool_loop cfg env (env.completionOrder outdated)).2.1 0
          (pool_loop cfg env (env.completionOrder outdated)).2.2] = [] from rfl,
      List.append_nil, pool_loop_outcomes]
    exact hperm.map (fun p => upgrade_package cfg env p)
  · refine ⟨(pool_loop cfg env (env.completionOrder outdated)).2.1,
      (pool_loop cfg env (env.completionOrder outdated)).2.2,
      (pool_loop cfg env (env.completionOrder outdated)).1, hphase, ?_⟩
    rw [pool_loop_counts, hperm.length_eq]
  · intro env2 p hrun
    unfold upgrade_package upgrade_package_run
    rw [hI]
    simp only [Bool.false_eq_true, if_false]
    unfold run_install_once
    rw [hrun]

theorem C7_witness :
    (outcomesOf (per_package_phase defaultCfg quietEnv [samplePkg])).Perm
      ([samplePkg].map (fun p => upgrade_package defaultCfg quietEnv p)) ∧
    (∃ s f evs, per_package_phase defaultCfg quietEnv [samplePkg]
        = evs ++ [Event.printedSummary s 0 f] ∧ s + f = [samplePkg].length) ∧
    (∀ env2 p, env2.runOne p.name = quietEnv.runOne p.name →
      upgrade_package defaultCfg env2 p = upgrade_package defaultCfg quietEnv p) :=
  C7_pool_isolation defaultCfg quietEnv [samplePkg] rfl (List.Perm.refl _)

/-- State of the worker pool of `upgrade_all_packages`: package names
submitted but not yet started, names whose upgrade subprocess is in flight,
names whose future completed. -/
structure PoolState where
  pending : List String
  running : List String
  done : List String
deriving DecidableEq, Repr

/-- The scheduling contract of `ThreadPoolExecutor(max_workers=w)` applied to
the futures submitted in lines 262-265: the executor starts a pending unit of
work only while strictly fewer than `w` are in flight; an in-flight unit may
finish at any time. -/
inductive PoolStep (w : Nat) : PoolState → PoolState → Prop
  | start (t : String) (pending running done : List String)
      (hcap : running.length < w) :
      PoolStep w ⟨t :: pending, running, done⟩ ⟨pending, t :: running, done⟩
  | finish (t : String) (pending r1 r2 done : List String) :
      PoolStep w ⟨pending, r1 ++ t :: r2, done⟩ ⟨pending, r1 ++ r2, t :: done⟩

/-- States reachable from an initial pool state by scheduling steps. -/
inductive PoolReachable (w : Nat) (init : PoolState) : PoolState → Prop
  | refl : PoolReachable w init init
  | step {s t : PoolState} : PoolReachable w init s → PoolStep w s t →
      PoolReachable w init t

/-- C8: starting from all the packages of the run submitted and nothing in
flight, every reachable state of the worker pool has at most
`cfg.max_workers` upgrade subprocesses in flight. -/
theorem C8_pool_bounded (cfg : Config) (outdated : List PackageInfo)
    (s : PoolState)
    (h : PoolReachable cfg.max_workers
      ⟨outdated.map (fun p => p.name), [], []⟩ s) :
    s.running.length ≤ cfg.max_workers := by
  induction h with
  | refl => simp
  | step hr hs ih =>
    cases hs with
    | start t pending running done hcap => simpa using hcap
    | finish t pending r1 r2 done =>
      simp only [List.length_append, List.length_cons] at ih ⊢
      omega

theorem C8_witness :
    (PoolState.mk [] ["requests"] []).running.length ≤ defaultCfg.max_workers :=
  C8_pool_bounded defaultCfg [samplePkg] (PoolState.mk [] ["requests"] [])
    (PoolReachable.step PoolReachable.refl
      (PoolStep.start "requests" [] [] [] (by decide)))

theorem batchOrPerPkg_interactive (cfg : Config) (env : Env)
    (outdated : List PackageInfo) (hI : cfg.interactive = true) :
    batchOrPerPkg cfg env outdated = per_package_phase cfg env outdated := by
  unfold batchOrPerPkg
  rw [hI]
  simp

/-- C10: in interactive mode with strictly more than 5 packages the whole
trace on a declined general confirmation is exactly the header, the single
general prompt and the cancellation message (so zero upgrade subprocesses and
zero outcomes), while an accepting answer (empty or "y" up to strip and
lower) puts the single general prompt right after the header and before the
per-package phase; with 5 or fewer packages the general prompt never appears;
and the decline test is exactly: the stripped lowered answer is neither empty
nor "y". -/
theorem C10_general_confirmation (cfg : Config) (env : Env)
    (outdated : List PackageInfo) (hI : cfg.interactive = true) :
    (5 < outdated.length →
      (declines env.generalResponse = true →
        upgrade_all_packages cfg env outdated false
          = [Event.printedFoundList outdated.length, Event.promptedGeneral,
             Event.printedCancelled]) ∧
      (declines env.generalResponse = false →
        upgrade_all_packages cfg env outdated false
          = Event.printedFoundList outdated.length :: Event.promptedGeneral ::
              per_package_phase cfg env outdated)) ∧
    (outdated.length ≤ 5 →
      Event.promptedGeneral ∉ upgrade_all_packages cfg env outdated false) ∧
    (declines env.generalResponse = true ↔
      ¬(env.generalResponse.trim.toLower = "" ∨
        env.generalResponse.trim.toLower = "y")) := by
  refine ⟨?_, ?_, ?_⟩
  · intro h5
    have hne : outdated ≠ [] := by
      intro hcon
      rw [hcon] at h5
      simp at h5
    have hcond : (cfg.interactive && decide (5 < outdated.length)) = true := by
      rw [hI, decide_eq_true h5]
      rfl
    constructor
    · intro hd
      unfold upgrade_all_packages
      rw [if_neg hne, hcond]
      simp only [if_true]
      rw [hd]
      rfl
    · intro hd
      unfold upgrade_all_packages
      rw [if_neg hne, hcond]
      simp only [if_true]
      rw [hd, batchOrPerPkg_interactive cfg env outdated hI]
      rfl
  · intro h5
    by_cases hne : outdated = []
    · rw [hne]
      show Event.promptedGeneral ∉ upgrade_all_packages cfg env [] false
      rw [show upgrade_all_packages cfg env [] false
          = [Event.printedUpToDate] from rfl]
      simp
    · have hcond : (cfg.interactive && decide (5 < outdated.length)) = false := by
        rw [decide_eq_false (Nat.not_lt.2 h5)]
        exact Bool.and_false _
      unfold upgrade_all_packages
      rw [if_neg hne, hcond]
      simp only [Bool.false_eq_true, if_false]
      rw [batchOrPerPkg_interactive cfg env outdated hI]
      intro hmem
      rcases List.mem_cons.1 hmem with hc | hmem2
      · cases hc
      · exact per_package_no_general cfg env outdated hmem2
  · simp [declines, not_or]

theorem C10_witness :
    Event.promptedGeneral ∉
      upgrade_all_packages interactiveCfg quietEnv [samplePkg] false :=
  (C10_general_confirmation interactiveCfg quietEnv [samplePkg] rfl).2.1
    (by decide)
